import Mathlib

/-!
Shallow embedding of the publish service (two variants: the upsert variant in
`push-code-to-db.js` and the strict-update variant), modelling the request
handler's decision logic: required-field validation, environment routing,
existence-check-then-branch control flow, dynamic partial-update construction,
and connection acquire/release behaviour.
-/

/-- A JavaScript value, as far as the handler's logic distinguishes them:
`undefined`, `null`, booleans, numbers, strings and arrays. -/
inductive JsVal where
  | undefined : JsVal
  | null : JsVal
  | bool : Bool → JsVal
  | num : Int → JsVal
  | str : String → JsVal
  | arr : List JsVal → JsVal
  deriving Repr

mutual

/-- Decidable equality on `JsVal` (structural, mirroring `===` on these shapes). -/
def JsVal.decEq : (a b : JsVal) → Decidable (a = b)
  | .undefined, .undefined => isTrue rfl
  | .undefined, .null => isFalse nofun
  | .undefined, .bool _ => isFalse nofun
  | .undefined, .num _ => isFalse nofun
  | .undefined, .str _ => isFalse nofun
  | .undefined, .arr _ => isFalse nofun
  | .null, .undefined => isFalse nofun
  | .null, .null => isTrue rfl
  | .null, .bool _ => isFalse nofun
  | .null, .num _ => isFalse nofun
  | .null, .str _ => isFalse nofun
  | .null, .arr _ => isFalse nofun
  | .bool _, .undefined => isFalse nofun
  | .bool _, .null => isFalse nofun
  | .bool a, .bool b =>
      if h : a = b then isTrue (h ▸ rfl) else isFalse (fun hh => h (JsVal.bool.inj hh))
  | .bool _, .num _ => isFalse nofun
  | .bool _, .str _ => isFalse nofun
  | .bool _, .arr _ => isFalse nofun
  | .num _, .undefined => isFalse nofun
  | .num _, .null => isFalse nofun
  | .num _, .bool _ => isFalse nofun
  | .num a, .num b =>
      if h : a = b then isTrue (h ▸ rfl) else isFalse (fun hh => h (JsVal.num.inj hh))
  | .num _, .str _ => isFalse nofun
  | .num _, .arr _ => isFalse nofun
  | .str _, .undefined => isFalse nofun
  | .str _, .null => isFalse nofun
  | .str _, .bool _ => isFalse nofun
  | .str _, .num _ => isFalse nofun
  | .str a, .str b =>
      if h : a = b then isTrue (h ▸ rfl) else isFalse (fun hh => h (JsVal.str.inj hh))
  | .str _, .arr _ => isFalse nofun
  | .arr _, .undefined => isFalse nofun
  | .arr _, .null => isFalse nofun
  | .arr _, .bool _ => isFalse nofun
  | .arr _, .num _ => isFalse nofun
  | .arr _, .str _ => isFalse nofun
  | .arr a, .arr b =>
      match JsVal.decEqList a b with
      | isTrue h => isTrue (h ▸ rfl)
      | isFalse h => isFalse (fun hh => h (JsVal.arr.inj hh))

/-- Decidable equality on lists of `JsVal`. -/
def JsVal.decEqList : (a b : List JsVal) → Decidable (a = b)
  | [], [] => isTrue rfl
  | [], _ :: _ => isFalse nofun
  | _ :: _, [] => isFalse nofun
  | x :: xs, y :: ys =>
      match JsVal.decEq x y, JsVal.decEqList xs ys with
      | isTrue h1, isTrue h2 => isTrue (h1 ▸ h2 ▸ rfl)
      | isFalse h1, _ => isFalse (fun hh => h1 (List.cons.inj hh).1)
      | _, isFalse h2 => isFalse (fun hh => h2 (List.cons.inj hh).2)

end

instance : DecidableEq JsVal := JsVal.decEq

/-- JavaScript truthiness on the modelled value shapes. -/
def truthy : JsVal → Bool
  | .undefined => false
  | .null => false
  | .bool b => b
  | .num n => n != 0
  | .str s => s != ""
  | .arr _ => true

mutual

/-- `JSON.stringify`, restricted to the modelled value shapes (string escaping
is not modelled; the handlers only compare serialized values structurally). -/
def jsonStringify : JsVal → String
  | .undefined => "undefined"
  | .null => "null"
  | .bool b => if b then "true" else "false"
  | .num n => toString n
  | .str s => "\"" ++ s ++ "\""
  | .arr xs => "[" ++ jsonStringifyList xs ++ "]"

/-- Comma-joined serialization of array elements. -/
def jsonStringifyList : List JsVal → String
  | [] => ""
  | [x] => jsonStringify x
  | x :: xs => jsonStringify x ++ "," ++ jsonStringifyList xs

end

/-- Process-wide configuration: the three `*_DB_URL` environment variables as
seen by `process.env` (a missing variable is `undefined`). -/
structure Config where
  prestagingDbUrl : JsVal
  stagingDbUrl : JsVal
  productionDbUrl : JsVal
  deriving DecidableEq, Repr

/-- `getDbUrl(env)`: select the DB connection string based on `env`
(returns `null` for any unrecognized environment). -/
def getDbUrl (cfg : Config) (env : JsVal) : JsVal :=
  if env = .str "prestaging" then cfg.prestagingDbUrl
  else if env = .str "staging" then cfg.stagingDbUrl
  else if env = .str "production" then cfg.productionDbUrl
  else .null

/-- The parsed request body, after destructuring: a field absent from the JSON
body destructures to `undefined`. -/
structure Body where
  env : JsVal := .undefined
  appId : JsVal := .undefined
  appName : JsVal := .undefined
  appVersion : JsVal := .undefined
  appCode : JsVal := .undefined
  hasTriggers : JsVal := .undefined
  hasActions : JsVal := .undefined
  gitSha : JsVal := .undefined
  tags : JsVal := .undefined
  deriving DecidableEq, Repr

/-- One row of the `app` table: the bound column values plus the two
`CURRENT_TIMESTAMP` columns (timestamps modelled as `Nat`). -/
structure AppRecord where
  app_id : JsVal
  app_name : JsVal
  app_version : JsVal
  app_code : JsVal
  has_triggers : JsVal
  has_actions : JsVal
  git_sha : JsVal
  tags : JsVal
  created_at : Nat
  updated_at : Nat
  deriving DecidableEq, Repr

/-- The data of a parameterized `UPDATE` statement: the assignment fragments in
order, the placeholder index used in `WHERE app_id = $idx`, and the bound
values in order. -/
structure QueryData where
  assigns : List String
  whereIdx : Nat
  values : List JsVal
  deriving DecidableEq, Repr

/-- Observable datastore interactions of one request: `connect` is
`client.connect()` being called, `release` is `client.end()` being called,
and the three query events record each `client.query` call with its data. -/
inductive DbEvent where
  | connect : DbEvent
  | release : DbEvent
  | existsQuery : JsVal → DbEvent
  | updateQuery : QueryData → DbEvent
  | insertQuery : List JsVal → DbEvent
  deriving DecidableEq, Repr

/-- Failure schedule for the datastore collaborator: whether `connect`, the
existence query, or the write (update/insert) query throws, and with which
error message. -/
structure DbBehavior where
  connectErr : Option String := none
  existsErr : Option String := none
  writeErr : Option String := none
  deriving DecidableEq, Repr

/-- The observable outcome of one request: HTTP status, response body fields,
the resulting `app` table, and the datastore event trace. -/
structure HandlerResult where
  status : Nat
  success : Bool
  error : Option String := none
  action : Option String := none
  appIdOut : Option JsVal := none
  createdAt : Option Nat := none
  updatedAt : Option Nat := none
  store : List AppRecord
  events : List DbEvent
  deriving DecidableEq, Repr

/-- One step of the upsert variant's dynamic update construction: given the
running `(updates, values, idx)` state, conditionally push one assignment
fragment (built from the current `idx` with an optional cast suffix) and its
bound value, and bump `idx`. -/
def addField (st : List String × List JsVal × Nat) (cond : Bool) (col : String)
    (suffix : String) (v : JsVal) : List String × List JsVal × Nat :=
  if cond then
    (st.1 ++ [col ++ " = $" ++ toString st.2.2 ++ suffix], st.2.1 ++ [v], st.2.2 + 1)
  else st

/-- The upsert variant's update-branch construction of `updates`, `values` and
`idx` (initially `([], [], 1)`), following the source's seven `!== undefined`
checks in order; `tags` is pushed with a `::jsonb` cast and a
`JSON.stringify`-ed value. -/
def buildUpdateState (b : Body) : List String × List JsVal × Nat :=
  addField (addField (addField (addField (addField (addField (addField
    ([], [], 1)
    (b.appName ≠ .undefined) "app_name" "" b.appName)
    (b.appVersion ≠ .undefined) "app_version" "" b.appVersion)
    (b.appCode ≠ .undefined) "app_code" "" b.appCode)
    (b.hasTriggers ≠ .undefined) "has_triggers" "" b.hasTriggers)
    (b.hasActions ≠ .undefined) "has_actions" "" b.hasActions)
    (b.gitSha ≠ .undefined) "git_sha" "" b.gitSha)
    (b.tags ≠ .undefined) "tags" "::jsonb" (.str (jsonStringify b.tags))

/-- The full `UPDATE` statement data the upsert variant sends: the built
assignments plus the unconditional `updated_at = CURRENT_TIMESTAMP`, the
`WHERE app_id = $idx` placeholder, and the built values with `appId`
pushed last. -/
def upsertUpdateQuery (b : Body) : QueryData :=
  { assigns := (buildUpdateState b).1 ++ ["updated_at = CURRENT_TIMESTAMP"]
    whereIdx := (buildUpdateState b).2.2
    values := (buildUpdateState b).2.1 ++ [b.appId] }

/-- Semantics of the upsert variant's dynamic `UPDATE` on one row: each column
whose field is present (not `undefined`) in the body is overwritten (`tags`
with its serialized form), and `updated_at` is always set. -/
def applyUpdate (b : Body) (now : Nat) (r : AppRecord) : AppRecord :=
  { r with
    app_name := if b.appName ≠ .undefined then b.appName else r.app_name
    app_version := if b.appVersion ≠ .undefined then b.appVersion else r.app_version
    app_code := if b.appCode ≠ .undefined then b.appCode else r.app_code
    has_triggers := if b.hasTriggers ≠ .undefined then b.hasTriggers else r.has_triggers
    has_actions := if b.hasActions ≠ .undefined then b.hasActions else r.has_actions
    git_sha := if b.gitSha ≠ .undefined then b.gitSha else r.git_sha
    tags := if b.tags ≠ .undefined then .str (jsonStringify b.tags) else r.tags
    updated_at := now }

/-- The bound values of the upsert variant's `INSERT`, in column order
`(app_name, app_id, app_version, app_code, has_triggers, has_actions,
git_sha, tags)`: `gitSha ?? null` and `tags ? JSON.stringify(tags) : []`. -/
def insertValuesOf (b : Body) : List JsVal :=
  [b.appName, b.appId, b.appVersion, b.appCode, b.hasTriggers, b.hasActions,
   (if b.gitSha = .undefined ∨ b.gitSha = .null then .null else b.gitSha),
   (if truthy b.tags then .str (jsonStringify b.tags) else .arr [])]

/-- The row the upsert variant's `INSERT` creates, with
`created_at = updated_at = CURRENT_TIMESTAMP`. -/
def insertedRecord (b : Body) (now : Nat) : AppRecord :=
  { app_id := b.appId
    app_name := b.appName
    app_version := b.appVersion
    app_code := b.appCode
    has_triggers := b.hasTriggers
    has_actions := b.hasActions
    git_sha := if b.gitSha = .undefined ∨ b.gitSha = .null then .null else b.gitSha
    tags := if truthy b.tags then .str (jsonStringify b.tags) else .arr []
    created_at := now
    updated_at := now }

/-- The upsert variant's request handler (`push-code-to-db.js`), for a
well-formed `POST /publish` with a parsed body: required-field check,
environment routing, connect, existence check, then dynamic update or
insert; every thrown error lands in the catch (status 500) and the
`finally` releases the client whenever it was created. -/
def upsertHandler (cfg : Config) (b : Body) (store : List AppRecord)
    (beh : DbBehavior) (now : Nat) : HandlerResult :=
  if ¬ truthy b.env ∨ ¬ truthy b.appId then
    { status := 400, success := false
      error := some "Missing required fields: env, appId"
      store := store, events := [] }
  else if ¬ truthy (getDbUrl cfg b.env) then
    { status := 400, success := false
      error := some "Invalid environment"
      store := store, events := [] }
  else
    match beh.connectErr with
    | some msg =>
        { status := 500, success := false, error := some msg
          store := store, events := [.connect, .release] }
    | none =>
      match beh.existsErr with
      | some msg =>
          { status := 500, success := false, error := some msg
            store := store, events := [.connect, .existsQuery b.appId, .release] }
      | none =>
        let found := store.filter (fun r => r.app_id = b.appId)
        if found.length > 0 then
          if (buildUpdateState b).1.length + 1 = 1 then
            { status := 500, success := false
              error := some "No fields provided to update"
              store := store, events := [.connect, .existsQuery b.appId, .release] }
          else
            match beh.writeErr with
            | some msg =>
                { status := 500, success := false, error := some msg
                  store := store
                  events := [.connect, .existsQuery b.appId,
                             .updateQuery (upsertUpdateQuery b), .release] }
            | none =>
                { status := 200, success := true, action := some "updated"
                  appIdOut := found.head?.map (fun r => r.app_id)
                  updatedAt := some now
                  store := store.map (fun r =>
                    if r.app_id = b.appId then applyUpdate b now r else r)
                  events := [.connect, .existsQuery b.appId,
                             .updateQuery (upsertUpdateQuery b), .release] }
        else
          if ¬ truthy b.appName ∨ ¬ truthy b.appVersion ∨ ¬ truthy b.appCode ∨
             ¬ truthy b.hasTriggers ∨ ¬ truthy b.hasActions then
            { status := 400, success := false
              error := some "appName, appVersion and appCode are required when creating a new app"
              store := store, events := [.connect, .existsQuery b.appId, .release] }
          else
            match beh.writeErr with
            | some msg =>
                { status := 500, success := false, error := some msg
                  store := store
                  events := [.connect, .existsQuery b.appId,
                             .insertQuery (insertValuesOf b), .release] }
            | none =>
                { status := 200, success := true, action := some "created"
                  appIdOut := some b.appId
                  createdAt := some now
                  store := store ++ [insertedRecord b now]
                  events := [.connect, .existsQuery b.appId,
                             .insertQuery (insertValuesOf b), .release] }

/-- The strict-update variant's fixed `UPDATE` statement data:
`SET app_code = $1, updated_at = NOW() WHERE app_id = $2` with values
`[appCode, appId]`. -/
def strictQuery (b : Body) : QueryData :=
  { assigns := ["app_code = $1", "updated_at = NOW()"]
    whereIdx := 2
    values := [b.appCode, b.appId] }

/-- Semantics of the strict variant's `UPDATE` on one row: overwrite
`app_code` and `updated_at`, nothing else. -/
def applyStrictUpdate (b : Body) (now : Nat) (r : AppRecord) : AppRecord :=
  { r with app_code := b.appCode, updated_at := now }

/-- The strict-update variant's request handler (the second source file):
requires `env`, `appId`, `appCode`; routes the environment; connects;
issues the fixed conditional update; maps zero matched rows to 404
"App not found". There is no `finally`, so `client.end()` runs only after a
successful query; a thrown connect or query error reaches the catch with the
connection still unreleased. -/
def strictHandler (cfg : Config) (b : Body) (store : List AppRecord)
    (beh : DbBehavior) (now : Nat) : HandlerResult :=
  if ¬ truthy b.env ∨ ¬ truthy b.appId ∨ ¬ truthy b.appCode then
    { status := 400, success := false
      error := some "Missing required fields: env, appId, appCode"
      store := store, events := [] }
  else if ¬ truthy (getDbUrl cfg b.env) then
    { status := 400, success := false
      error := some "Invalid environment"
      store := store, events := [] }
  else
    match beh.connectErr with
    | some msg =>
        { status := 500, success := false, error := some msg
          store := store, events := [.connect] }
    | none =>
      match beh.writeErr with
      | some msg =>
          { status := 500, success := false, error := some msg
            store := store, events := [.connect, .updateQuery (strictQuery b)] }
      | none =>
        let found := store.filter (fun r => r.app_id = b.appId)
        if found.length = 0 then
          { status := 404, success := false, error := some "App not found"
            store := store
            events := [.connect, .updateQuery (strictQuery b), .release] }
        else
          { status := 200, success := true
            appIdOut := found.head?.map (fun r => r.app_id)
            updatedAt := some now
            store := store.map (fun r =>
              if r.app_id = b.appId then applyStrictUpdate b now r else r)
            events := [.connect, .updateQuery (strictQuery b), .release] }

/-- Number of `client.connect()` calls in a trace. -/
def connectCount (es : List DbEvent) : Nat :=
  (es.filter (fun e => e = .connect)).length

/-- Number of `client.end()` calls in a trace. -/
def releaseCount (es : List DbEvent) : Nat :=
  (es.filter (fun e => e = .release)).length

/-- A configuration with all three `*_DB_URL` variables set. -/
def cfgAllSet : Config :=
  { prestagingDbUrl := .str "postgres://pre"
    stagingDbUrl := .str "postgres://stag"
    productionDbUrl := .str "postgres://prod" }

/-- An existing `app` row with `app_id = "a1"`, used as a concrete store. -/
def recA1 : AppRecord :=
  { app_id := .str "a1", app_name := .str "svc", app_version := .str "0.9"
    app_code := .str "oldcode", has_triggers := .bool true
    has_actions := .bool true, git_sha := .null, tags := .str "[]"
    created_at := 1, updated_at := 1 }

/-- Spec-side description of the upsert update construction: the sub-list of
the seven optional fields that are present in the body, in source order, each
with its column name, cast suffix and bound value. -/
def includedEntries (b : Body) : List (String × String × JsVal) :=
  (if b.appName ≠ .undefined then [("app_name", "", b.appName)] else []) ++
  (if b.appVersion ≠ .undefined then [("app_version", "", b.appVersion)] else []) ++
  (if b.appCode ≠ .undefined then [("app_code", "", b.appCode)] else []) ++
  (if b.hasTriggers ≠ .undefined then [("has_triggers", "", b.hasTriggers)] else []) ++
  (if b.hasActions ≠ .undefined then [("has_actions", "", b.hasActions)] else []) ++
  (if b.gitSha ≠ .undefined then [("git_sha", "", b.gitSha)] else []) ++
  (if b.tags ≠ .undefined then [("tags", "::jsonb", .str (jsonStringify b.tags))] else [])

/-- The assignment fragments for a run of entries, with placeholders numbered
consecutively from `i`. -/
def entryAssigns (i : Nat) : List (String × String × JsVal) → List String
  | [] => []
  | e :: es => (e.1 ++ " = $" ++ toString i ++ e.2.1) :: entryAssigns (i + 1) es

theorem entryAssigns_length (i : Nat) (es : List (String × String × JsVal)) :
    (entryAssigns i es).length = es.length := by
  induction es generalizing i with
  | nil => rfl
  | cons x xs ih => simp [entryAssigns, ih]

theorem entryAssigns_append (i : Nat) (es : List (String × String × JsVal))
    (e : String × String × JsVal) :
    entryAssigns i (es ++ [e])
      = entryAssigns i es ++ [e.1 ++ " = $" ++ toString (i + es.length) ++ e.2.1] := by
  induction es generalizing i with
  | nil => simp [entryAssigns]
  | cons x xs ih =>
      have harith : i + 1 + xs.length = i + (xs.length + 1) := by omega
      simp [entryAssigns, ih, harith]

theorem addField_entry (es : List (String × String × JsVal)) (cond : Bool)
    (col suffix : String) (v : JsVal) :
    addField (entryAssigns 1 es, es.map (fun e => e.2.2), es.length + 1) cond col suffix v
      = (entryAssigns 1 (es ++ if cond then [(col, suffix, v)] else []),
         (es ++ if cond then [(col, suffix, v)] else []).map (fun e => e.2.2),
         (es ++ if cond then [(col, suffix, v)] else []).length + 1) := by
  cases cond with
  | false => simp [addField]
  | true =>
      have harith : 1 + es.length = es.length + 1 := by omega
      simp [addField, entryAssigns_append, harith]

theorem buildUpdateState_eq (b : Body) :
    buildUpdateState b
      = (entryAssigns 1 (includedEntries b),
         (includedEntries b).map (fun e => e.2.2),
         (includedEntries b).length + 1) := by
  show addField (addField (addField (addField (addField (addField (addField
      (entryAssigns 1 [], ([] : List (String × String × JsVal)).map (fun e => e.2.2),
        ([] : List (String × String × JsVal)).length + 1)
      (b.appName ≠ .undefined) "app_name" "" b.appName)
      (b.appVersion ≠ .undefined) "app_version" "" b.appVersion)
      (b.appCode ≠ .undefined) "app_code" "" b.appCode)
      (b.hasTriggers ≠ .undefined) "has_triggers" "" b.hasTriggers)
      (b.hasActions ≠ .undefined) "has_actions" "" b.hasActions)
      (b.gitSha ≠ .undefined) "git_sha" "" b.gitSha)
      (b.tags ≠ .undefined) "tags" "::jsonb" (.str (jsonStringify b.tags)) = _
  rw [addField_entry, addField_entry, addField_entry, addField_entry,
      addField_entry, addField_entry, addField_entry]
  simp [includedEntries]

/-- C8: in the upsert variant's update path, for every descriptor the built
assignment list and bound-value list stay in matching order and length — the
i-th present optional field contributes the i-th assignment fragment with
placeholder number i and the i-th bound value — and the WHERE clause's
placeholder index is one more than the number of included fields and is bound
to `appId`, pushed last. -/
theorem c8_update_build_alignment (b : Body) :
    (buildUpdateState b).1.length = (buildUpdateState b).2.1.length ∧
    (buildUpdateState b).2.2 = (buildUpdateState b).1.length + 1 ∧
    (buildUpdateState b).1 = entryAssigns 1 (includedEntries b) ∧
    (buildUpdateState b).2.1 = (includedEntries b).map (fun e => e.2.2) ∧
    (upsertUpdateQuery b).whereIdx = (includedEntries b).length + 1 ∧
    (upsertUpdateQuery b).values
      = (includedEntries b).map (fun e => e.2.2) ++ [b.appId] := by
  have h := buildUpdateState_eq b
  refine ⟨?_, ?_, ?_, ?_, ?_, ?_⟩ <;>
    simp [h, upsertUpdateQuery, entryAssigns_length]

/-- The descriptor of the spec's creation scenario, with `hasActions: false`. -/
def c1Body : Body :=
  { env := .str "staging", appId := .str "a1", appName := .str "svc"
    appVersion := .str "1.0", appCode := .str "code"
    hasTriggers := .bool true, hasActions := .bool false }

/-- C1 counterexample: publishing the scenario descriptor (with
`hasActions: false`) against an empty staging store does not return Created
and inserts nothing — the creation check `!hasTriggers || !hasActions`
rejects the falsy `hasActions` with a 400. -/
theorem c1_counterexample :
    (upsertHandler cfgAllSet c1Body [] {} 0).action ≠ some "created" ∧
    (upsertHandler cfgAllSet c1Body [] {} 0).status = 400 ∧
    (upsertHandler cfgAllSet c1Body [] {} 0).success = false ∧
    (upsertHandler cfgAllSet c1Body [] {} 0).store = [] := by decide

/-- C1 (amended): publishing the scenario descriptor against an empty staging
store fails creation-field validation (because `hasActions` is false, hence
falsy), returning the 400 creation-validation failure and inserting no
record; only the existence check ran against the datastore. -/
theorem c1_amended_creation_rejected :
    (upsertHandler cfgAllSet c1Body [] {} 0).status = 400 ∧
    (upsertHandler cfgAllSet c1Body [] {} 0).success = false ∧
    (upsertHandler cfgAllSet c1Body [] {} 0).error
      = some "appName, appVersion and appCode are required when creating a new app" ∧
    (upsertHandler cfgAllSet c1Body [] {} 0).store = [] ∧
    (upsertHandler cfgAllSet c1Body [] {} 0).events
      = [.connect, .existsQuery (.str "a1"), .release] := by decide

/-- C2 counterexample: publishing a descriptor with only `appId` and `env`
against a store containing that record is rejected (not a no-op Updated) but
surfaces as a 500 internal failure from the generic catch, not as a 400
bad-request failure. -/
theorem c2_counterexample :
    (upsertHandler cfgAllSet { env := .str "staging", appId := .str "a1" }
        [recA1] {} 2).status = 500 ∧
    (upsertHandler cfgAllSet { env := .str "staging", appId := .str "a1" }
        [recA1] {} 2).status ≠ 400 ∧
    (upsertHandler cfgAllSet { env := .str "staging", appId := .str "a1" }
        [recA1] {} 2).error = some "No fields provided to update" ∧
    (upsertHandler cfgAllSet { env := .str "staging", appId := .str "a1" }
        [recA1] {} 2).action ≠ some "updated" := by decide

/-- C2 (amended): for every descriptor supplying only `appId` and `env`
against an existing record, the upsert variant rejects the empty update with
the reason "No fields provided to update" and performs no write — but the
thrown error is mapped by the generic catch to a 500 internal failure, not to
a 400 bad request. -/
theorem c2_amended_empty_update_internal_failure (cfg : Config) (b : Body)
    (store : List AppRecord) (beh : DbBehavior) (now : Nat)
    (henv : truthy b.env = true) (happ : truthy b.appId = true)
    (hurl : truthy (getDbUrl cfg b.env) = true)
    (hce : beh.connectErr = none) (hee : beh.existsErr = none)
    (h1 : b.appName = .undefined) (h2 : b.appVersion = .undefined)
    (h3 : b.appCode = .undefined) (h4 : b.hasTriggers = .undefined)
    (h5 : b.hasActions = .undefined) (h6 : b.gitSha = .undefined)
    (h7 : b.tags = .undefined)
    (hex : 0 < (store.filter (fun r => r.app_id = b.appId)).length) :
    (upsertHandler cfg b store beh now).status = 500 ∧
    (upsertHandler cfg b store beh now).success = false ∧
    (upsertHandler cfg b store beh now).error
      = some "No fields provided to update" ∧
    (upsertHandler cfg b store beh now).store = store ∧
    (upsertHandler cfg b store beh now).events
      = [.connect, .existsQuery b.appId, .release] := by
  simp [upsertHandler, buildUpdateState, addField, henv, happ, hurl, hce, hee,
        h1, h2, h3, h4, h5, h6, h7, hex]

/-- C2 witness: the amended theorem at the concrete empty-update input. -/
theorem c2_amended_witness :
    (upsertHandler cfgAllSet { env := .str "staging", appId := .str "a1" }
        [recA1] {} 2).status = 500 ∧
    (upsertHandler cfgAllSet { env := .str "staging", appId := .str "a1" }
        [recA1] {} 2).success = false ∧
    (upsertHandler cfgAllSet { env := .str "staging", appId := .str "a1" }
        [recA1] {} 2).error = some "No fields provided to update" ∧
    (upsertHandler cfgAllSet { env := .str "staging", appId := .str "a1" }
        [recA1] {} 2).store = [recA1] ∧
    (upsertHandler cfgAllSet { env := .str "staging", appId := .str "a1" }
        [recA1] {} 2).events
      = [.connect, .existsQuery (.str "a1"), .release] :=
  c2_amended_empty_update_internal_failure cfgAllSet
    { env := .str "staging", appId := .str "a1" } [recA1] {} 2
    (by decide) (by decide) (by decide) rfl rfl rfl rfl rfl rfl rfl rfl rfl
    (by decide)

/-- The strict variant's valid request body used as the C3 failing input. -/
def c3Body : Body :=
  { env := .str "staging", appId := .str "a1", appCode := .str "code" }

/-- C3: at the failing input (strict variant, valid request, update query
throws a store failure) the connection is acquired once but never released —
the strict variant has no finally, so `client.end()` is skipped on the throw
path — while the upsert variant at the analogous failing input releases
exactly as often as it acquires. -/
theorem c3_strict_store_failure_leaks_connection :
    connectCount (strictHandler cfgAllSet c3Body [recA1]
        { writeErr := some "connection terminated" } 0).events = 1 ∧
    releaseCount (strictHandler cfgAllSet c3Body [recA1]
        { writeErr := some "connection terminated" } 0).events = 0 ∧
    releaseCount (upsertHandler cfgAllSet c3Body [recA1]
        { writeErr := some "connection terminated" } 0).events
      = connectCount (upsertHandler cfgAllSet c3Body [recA1]
        { writeErr := some "connection terminated" } 0).events ∧
    connectCount (strictHandler cfgAllSet c3Body [recA1]
        { connectErr := some "connect ECONNREFUSED" } 0).events = 1 ∧
    releaseCount (strictHandler cfgAllSet c3Body [recA1]
        { connectErr := some "connect ECONNREFUSED" } 0).events = 0 := by decide

/-- The creation descriptor without `tags`, used for C4. -/
def c4Body : Body :=
  { env := .str "staging", appId := .str "a2", appName := .str "svc"
    appVersion := .str "1.0", appCode := .str "code"
    hasTriggers := .bool true, hasActions := .bool true }

/-- C4 counterexample: creating a record from a descriptor that omits `tags`
binds the raw empty array `[]` for the `tags` column, which is not the
JSON-serialized empty-collection form — the serialized form (what a present
empty `tags` would produce via `JSON.stringify`) is the string "[]". -/
theorem c4_counterexample :
    ((upsertHandler cfgAllSet c4Body [] {} 0).store.map (fun r => r.tags))
      = [JsVal.arr []] ∧
    JsVal.arr [] ≠ JsVal.str (jsonStringify (JsVal.arr [])) ∧
    (if truthy (JsVal.arr []) then JsVal.str (jsonStringify (JsVal.arr []))
     else JsVal.arr []) = JsVal.str "[]" := by decide

/-- C4 (amended): for every creation whose descriptor omits `tags`, the
inserted record's `tags` value is the raw (unserialized) empty array — an
empty collection, and in particular not null — whereas a present `tags` is
stored in `JSON.stringify`-ed string form. -/
theorem c4_amended_absent_tags_raw_empty_array (cfg : Config) (b : Body)
    (store : List AppRecord) (beh : DbBehavior) (now : Nat)
    (henv : truthy b.env = true) (happ : truthy b.appId = true)
    (hurl : truthy (getDbUrl cfg b.env) = true)
    (hce : beh.connectErr = none) (hee : beh.existsErr = none)
    (hwr : beh.writeErr = none)
    (hnew : (store.filter (fun r => r.app_id = b.appId)).length = 0)
    (hn : truthy b.appName = true) (hv : truthy b.appVersion = true)
    (hc : truthy b.appCode = true) (ht : truthy b.hasTriggers = true)
    (ha : truthy b.hasActions = true)
    (htags : b.tags = .undefined) :
    (upsertHandler cfg b store beh now).action = some "created" ∧
    (upsertHandler cfg b store beh now).store = store ++ [insertedRecord b now] ∧
    (insertedRecord b now).tags = .arr [] ∧
    JsVal.arr [] ≠ JsVal.null := by
  refine ⟨?_, ?_, ?_, by decide⟩
  · simp [upsertHandler, henv, happ, hurl, hce, hee, hwr, hnew, hn, hv, hc, ht, ha]
  · simp [upsertHandler, henv, happ, hurl, hce, hee, hwr, hnew, hn, hv, hc, ht, ha]
  · simp [insertedRecord, htags, truthy]

/-- C4 witness: the amended theorem at the concrete tag-less creation. -/
theorem c4_amended_witness :
    (upsertHandler cfgAllSet c4Body [] {} 0).action = some "created" ∧
    (upsertHandler cfgAllSet c4Body [] {} 0).store
      = [] ++ [insertedRecord c4Body 0] ∧
    (insertedRecord c4Body 0).tags = .arr [] ∧
    JsVal.arr [] ≠ JsVal.null :=
  c4_amended_absent_tags_raw_empty_array cfgAllSet c4Body [] {} 0
    (by decide) (by decide) (by decide) rfl rfl rfl rfl
    (by decide) (by decide) (by decide) (by decide) (by decide) rfl

/-- C5 counterexample: the empty env string is outside the enumerated set,
and the router indeed yields no endpoint, but publish reports the
missing-required-fields failure, not the "Invalid environment"
(UnknownEnvironment) failure the claim asserts. -/
theorem c5_counterexample :
    getDbUrl cfgAllSet (.str "") = .null ∧
    (upsertHandler cfgAllSet { env := .str "", appId := .str "a1" }
        [] {} 0).error ≠ some "Invalid environment" ∧
    (upsertHandler cfgAllSet { env := .str "", appId := .str "a1" }
        [] {} 0).error = some "Missing required fields: env, appId" ∧
    (upsertHandler cfgAllSet { env := .str "", appId := .str "a1" }
        [] {} 0).events = [] := by decide

/-- C5 (amended): for every env outside {prestaging, staging, production}
the router yields no endpoint (`getDbUrl` returns null) and publish fails
with a 400 before any datastore I/O — with "Invalid environment" when `env`
and `appId` are truthy, but with the missing-required-fields error when the
env (or appId) is empty, missing or otherwise falsy. -/
theorem c5_amended_unknown_env_rejected_early (cfg : Config) (b : Body)
    (store : List AppRecord) (beh : DbBehavior) (now : Nat)
    (h1 : b.env ≠ .str "prestaging") (h2 : b.env ≠ .str "staging")
    (h3 : b.env ≠ .str "production") :
    getDbUrl cfg b.env = .null ∧
    (upsertHandler cfg b store beh now).status = 400 ∧
    (upsertHandler cfg b store beh now).success = false ∧
    (upsertHandler cfg b store beh now).events = [] ∧
    (upsertHandler cfg b store beh now).store = store ∧
    (upsertHandler cfg b store beh now).error
      = (if truthy b.env = true ∧ truthy b.appId = true
         then some "Invalid environment"
         else some "Missing required fields: env, appId") := by
  have hurl : getDbUrl cfg b.env = .null := by simp [getDbUrl, h1, h2, h3]
  by_cases hok : truthy b.env = true ∧ truthy b.appId = true
  · have hnull : truthy JsVal.null = false := rfl
    refine ⟨hurl, ?_, ?_, ?_, ?_, ?_⟩ <;>
      simp [upsertHandler, hurl, hok.1, hok.2, hnull]
  · rw [Decidable.not_and_iff_or_not] at hok
    refine ⟨hurl, ?_, ?_, ?_, ?_, ?_⟩ <;>
      rcases hok with hok | hok <;>
        simp [upsertHandler, Bool.not_eq_true] at hok ⊢ <;> simp [hok]

/-- C5 witness: the amended theorem at a concrete truthy non-enumerated env. -/
theorem c5_amended_witness :
    getDbUrl cfgAllSet (.num 1) = .null ∧
    (upsertHandler cfgAllSet { env := .num 1, appId := .str "a1" }
        [] {} 0).status = 400 ∧
    (upsertHandler cfgAllSet { env := .num 1, appId := .str "a1" }
        [] {} 0).success = false ∧
    (upsertHandler cfgAllSet { env := .num 1, appId := .str "a1" }
        [] {} 0).events = [] ∧
    (upsertHandler cfgAllSet { env := .num 1, appId := .str "a1" }
        [] {} 0).store = [] ∧
    (upsertHandler cfgAllSet { env := .num 1, appId := .str "a1" }
        [] {} 0).error
      = (if truthy (JsVal.num 1) = true ∧ truthy (JsVal.str "a1") = true
         then some "Invalid environment"
         else some "Missing required fields: env, appId") :=
  c5_amended_unknown_env_rejected_early cfgAllSet
    { env := .num 1, appId := .str "a1" } [] {} 0
    (by decide) (by decide) (by decide)

/-- C6: in the upsert variant, for every existing record, publishing a
descriptor containing only `appId`, `env` and `gitSha` succeeds as Updated
and rewrites the store so that exactly `git_sha` and `updated_at` of the
matching record change, every other stored field keeping its value and
non-matching records staying untouched. -/
theorem c6_partial_update_isolation (cfg : Config) (b : Body)
    (store : List AppRecord) (beh : DbBehavior) (now : Nat)
    (henv : truthy b.env = true) (happ : truthy b.appId = true)
    (hurl : truthy (getDbUrl cfg b.env) = true)
    (hce : beh.connectErr = none) (hee : beh.existsErr = none)
    (hwr : beh.writeErr = none)
    (h1 : b.appName = .undefined) (h2 : b.appVersion = .undefined)
    (h3 : b.appCode = .undefined) (h4 : b.hasTriggers = .undefined)
    (h5 : b.hasActions = .undefined) (h7 : b.tags = .undefined)
    (hgit : b.gitSha ≠ .undefined)
    (hex : 0 < (store.filter (fun r => r.app_id = b.appId)).length) :
    (upsertHandler cfg b store beh now).status = 200 ∧
    (upsertHandler cfg b store beh now).action = some "updated" ∧
    (upsertHandler cfg b store beh now).store
      = store.map (fun r =>
          if r.app_id = b.appId
          then { r with git_sha := b.gitSha, updated_at := now } else r) := by
  refine ⟨?_, ?_, ?_⟩ <;>
    simp [upsertHandler, applyUpdate, buildUpdateState, addField, henv, happ,
          hurl, hce, hee, hwr, h1, h2, h3, h4, h5, h7, hgit, hex]

/-- C6 witness: the partial-update theorem at a concrete gitSha-only
descriptor against a one-record store. -/
theorem c6_witness :
    (upsertHandler cfgAllSet
        { env := .str "staging", appId := .str "a1", gitSha := .str "abc" }
        [recA1] {} 7).status = 200 ∧
    (upsertHandler cfgAllSet
        { env := .str "staging", appId := .str "a1", gitSha := .str "abc" }
        [recA1] {} 7).action = some "updated" ∧
    (upsertHandler cfgAllSet
        { env := .str "staging", appId := .str "a1", gitSha := .str "abc" }
        [recA1] {} 7).store
      = [recA1].map (fun r =>
          if r.app_id = JsVal.str "a1"
          then { r with git_sha := JsVal.str "abc", updated_at := 7 } else r) :=
  c6_partial_update_isolation cfgAllSet
    { env := .str "staging", appId := .str "a1", gitSha := .str "abc" }
    [recA1] {} 7 (by decide) (by decide) (by decide) rfl rfl rfl
    rfl rfl rfl rfl rfl rfl (by decide) (by decide)

/-- C7: in the strict-update variant, every publish issues at most the one
fixed conditional update — exactly the `app_code` assignment and the
`updated_at` timestamp, keyed by `appId` — never an insert, and when the
request is valid and zero rows match the `appId` the result is the 404
"App not found" with the store unchanged. -/
theorem c7_strict_update_only_and_not_found (cfg : Config) (b : Body)
    (store : List AppRecord) (beh : DbBehavior) (now : Nat) :
    ((strictQuery b).assigns = ["app_code = $1", "updated_at = NOW()"] ∧
     (strictQuery b).values = [b.appCode, b.appId] ∧
     (strictQuery b).whereIdx = 2) ∧
    (∀ vs, DbEvent.insertQuery vs ∉ (strictHandler cfg b store beh now).events) ∧
    (∀ q, DbEvent.updateQuery q ∈ (strictHandler cfg b store beh now).events →
      q = strictQuery b) ∧
    (truthy b.env = true → truthy b.appId = true → truthy b.appCode = true →
     truthy (getDbUrl cfg b.env) = true →
     beh.connectErr = none → beh.writeErr = none →
     (store.filter (fun r => r.app_id = b.appId)).length = 0 →
     (strictHandler cfg b store beh now).status = 404 ∧
     (strictHandler cfg b store beh now).error = some "App not found" ∧
     (strictHandler cfg b store beh now).store = store) := by
  obtain ⟨ce, ee, we⟩ := beh
  refine ⟨⟨rfl, rfl, rfl⟩, ?_, ?_, ?_⟩
  · intro vs
    cases ce <;> cases we <;>
      simp only [strictHandler] <;> split_ifs <;> simp
  · intro q
    cases ce <;> cases we <;>
      simp only [strictHandler] <;> split_ifs <;> simp
  · intro henv happ hcode hurl hce hwe hzero
    simp only at hce hwe
    subst hce hwe
    simp [strictHandler, henv, happ, hcode, hurl, hzero]

/-- C7 witness: the strict variant's NotFound outcome and insert-freedom at a
concrete valid request against an empty store. -/
theorem c7_witness :
    (strictHandler cfgAllSet c3Body [] {} 0).status = 404 ∧
    (strictHandler cfgAllSet c3Body [] {} 0).error = some "App not found" ∧
    (strictHandler cfgAllSet c3Body [] {} 0).store = [] :=
  (c7_strict_update_only_and_not_found cfgAllSet c3Body [] {} 0).2.2.2
    (by decide) (by decide) (by decide) (by decide) rfl rfl (by decide)

/-- A configuration in which no `*_DB_URL` variable is set. -/
def cfgUnset : Config :=
  { prestagingDbUrl := .undefined, stagingDbUrl := .undefined
    productionDbUrl := .undefined }

/-- C9: for every request whose env is one of the three recognized values but
whose corresponding `*_DB_URL` configuration variable is unset (`getDbUrl`
returns `undefined`, which is falsy), publish fails with the same 400
"Invalid environment" response as for an unknown env, with no datastore I/O —
the full handler result is identical to the one for an unrecognized env. -/
theorem c9_unset_db_url_like_unknown_env (cfg : Config) (b : Body)
    (store : List AppRecord) (beh : DbBehavior) (now : Nat)
    (henv : b.env = .str "prestaging" ∨ b.env = .str "staging" ∨
            b.env = .str "production")
    (happ : truthy b.appId = true)
    (hurl : getDbUrl cfg b.env = .undefined) :
    (upsertHandler cfg b store beh now).status = 400 ∧
    (upsertHandler cfg b store beh now).success = false ∧
    (upsertHandler cfg b store beh now).error = some "Invalid environment" ∧
    (upsertHandler cfg b store beh now).events = [] ∧
    (upsertHandler cfg b store beh now).store = store ∧
    upsertHandler cfg b store beh now
      = upsertHandler cfg { b with env := .str "zzz-unknown" } store beh now := by
  have htruthy : truthy b.env = true := by
    rcases henv with h | h | h <;> rw [h] <;> rfl
  have hurl2 : truthy (getDbUrl cfg b.env) = false := by rw [hurl]; rfl
  have hz : truthy (JsVal.str "zzz-unknown") = true := rfl
  have hurl3 : getDbUrl cfg (JsVal.str "zzz-unknown") = JsVal.null := by
    simp [getDbUrl]
  have hnull : truthy JsVal.null = false := rfl
  refine ⟨?_, ?_, ?_, ?_, ?_, ?_⟩ <;>
    simp [upsertHandler, htruthy, happ, hurl2, hz, hurl3, hnull]

/-- C9 witness: the theorem at env "staging" with `STAGING_DB_URL` unset. -/
theorem c9_witness :
    (upsertHandler cfgUnset { env := .str "staging", appId := .str "a1" }
        [] {} 0).status = 400 ∧
    (upsertHandler cfgUnset { env := .str "staging", appId := .str "a1" }
        [] {} 0).success = false ∧
    (upsertHandler cfgUnset { env := .str "staging", appId := .str "a1" }
        [] {} 0).error = some "Invalid environment" ∧
    (upsertHandler cfgUnset { env := .str "staging", appId := .str "a1" }
        [] {} 0).events = [] ∧
    (upsertHandler cfgUnset { env := .str "staging", appId := .str "a1" }
        [] {} 0).store = [] ∧
    upsertHandler cfgUnset { env := .str "staging", appId := .str "a1" } [] {} 0
      = upsertHandler cfgUnset
          { env := .str "zzz-unknown", appId := .str "a1" } [] {} 0 :=
  c9_unset_db_url_like_unknown_env cfgUnset
    { env := .str "staging", appId := .str "a1" } [] {} 0
    (Or.inr (Or.inl rfl)) (by decide) (by decide)

/-- C10: in both variants the required-field check uses truthiness, so a
descriptor whose `appId` or `env` (or, in the strict variant, `appCode`) is
falsy — the empty string, false, 0, null — is rejected with the
missing-required-fields 400 response before any datastore I/O, exactly the
response an absent field produces. -/
theorem c10_falsy_required_fields_rejected (cfg : Config) (b : Body)
    (store : List AppRecord) (beh : DbBehavior) (now : Nat)
    (h : truthy b.env = false ∨ truthy b.appId = false ∨
         truthy b.appCode = false) :
    strictHandler cfg b store beh now
      = { status := 400, success := false
          error := some "Missing required fields: env, appId, appCode"
          store := store, events := [] } ∧
    ((truthy b.env = false ∨ truthy b.appId = false) →
      upsertHandler cfg b store beh now
        = { status := 400, success := false
            error := some "Missing required fields: env, appId"
            store := store, events := [] }) := by
  constructor
  · rcases h with h | h | h <;> simp [strictHandler, h]
  · intro h2
    rcases h2 with h2 | h2 <;> simp [upsertHandler, h2]

/-- C10 witness: both variants reject an empty-string `appId`. -/
theorem c10_witness :
    strictHandler cfgAllSet
        { env := .str "staging", appId := .str "", appCode := .str "c" }
        [] {} 0
      = { status := 400, success := false
          error := some "Missing required fields: env, appId, appCode"
          store := [], events := [] } ∧
    upsertHandler cfgAllSet
        { env := .str "staging", appId := .str "", appCode := .str "c" }
        [] {} 0
      = { status := 400, success := false
          error := some "Missing required fields: env, appId"
          store := [], events := [] } :=
  ⟨(c10_falsy_required_fields_rejected cfgAllSet
      { env := .str "staging", appId := .str "", appCode := .str "c" }
      [] {} 0 (by decide)).1,
   (c10_falsy_required_fields_rejected cfgAllSet
      { env := .str "staging", appId := .str "", appCode := .str "c" }
      [] {} 0 (by decide)).2 (by decide)⟩
